import Mathlib

/-!
Verification of the two simulation programs in this repository:
Program A (Monte Carlo estimation of π, `Estimation of PI.py`) and
Program B (Monty Hall simulator, `MontyHall.py`).

Randomness is modelled by passing the random draws explicitly:
* Program B: the shuffled door configuration (one of the three
  permutations of `[0, 0, 1]`), the player's uniform choice in `{0,1,2}`,
  and the index of the host's uniform choice into the list of legally
  openable doors (mirroring `np.random.choice(possible_doors)`).
* Program A: an underlying stream `u : ℕ → ℝ` of unit-uniform samples
  together with a counter, mirroring numpy's sequential consumption of
  its global bit stream; `np.random.uniform(low, high, size)` maps each
  unit sample `t` to `low + (high - low) * t` and rejects negative sizes.
-/

/-! ## Program B: Monty Hall simulator (`MontyHall.py`) -/

/-- One row of the simulator's result table: the dictionary returned by
`MontyHallSimulator.simulate_trial` (door labels are 1-indexed in the
record, 0-indexed internally). -/
structure TrialRecord where
  doorsConfiguration : String
  playerChoice : ℕ
  hostOpens : ℕ
  remainingDoor : ℤ
  stayWin : ℕ
  switchWin : ℕ

/-- The three possible door configurations after `np.random.shuffle(doors)`
of `doors = [0, 0, 1]` (exactly one car, encoded `1`). -/
def validDoorConfigs : List (List ℕ) := [[0, 0, 1], [0, 1, 0], [1, 0, 0]]

/-- `possible_doors = [i for i in range(3) if i != player_choice and doors[i] == 0]`:
the doors the host may legally open. -/
def possible_doors (doors : List ℕ) (player_choice : ℕ) : List ℕ :=
  (List.range 3).filter (fun i => i != player_choice && doors.getD i 1 == 0)

/-- `host_opens = np.random.choice(possible_doors)`: the host's door, as a
function of the uniformly drawn index `k` into `possible_doors`. -/
def host_door (doors : List ℕ) (player_choice k : ℕ) : ℕ :=
  (possible_doors doors player_choice).getD k 0

/-- `MontyHallSimulator.simulate_trial`, with the three random draws made
explicit: the shuffled `doors`, the `player_choice`, and the index `k` of
the host's choice among `possible_doors`. -/
def simulate_trial (doors : List ℕ) (player_choice k : ℕ) : TrialRecord :=
  let car_position := doors.indexOf 1
  let host_opens := host_door doors player_choice k
  let remaining_door : ℤ := 3 - (player_choice : ℤ) - (host_opens : ℤ)
  { doorsConfiguration := String.join (doors.map (fun d => toString d))
    playerChoice := player_choice + 1
    hostOpens := host_opens + 1
    remainingDoor := remaining_door + 1
    stayWin := if player_choice = car_position then 1 else 0
    switchWin := if remaining_door = (car_position : ℤ) then 1 else 0 }

/-- Helper: in every legal trial the stay flag and the switch flag sum
to one. Shared by the per-trial invariant and the aggregate statistics. -/
theorem trial_flags_one :
    ∀ doors ∈ validDoorConfigs, ∀ p, p < 3 →
      ∀ k, k < (possible_doors doors p).length →
        (simulate_trial doors p k).stayWin + (simulate_trial doors p k).switchWin = 1 := by
  decide

/-- C1: for every trial record produced by `simulate_trial`, exactly one of
the stay-win flag and the switch-win flag equals 1 and the other equals 0,
i.e. `stay_win + switch_win = 1`, for every door configuration, player
choice, and host choice. -/
theorem stay_switch_complementary :
    ∀ doors ∈ validDoorConfigs, ∀ p, p < 3 →
      ∀ k, k < (possible_doors doors p).length →
        (simulate_trial doors p k).stayWin + (simulate_trial doors p k).switchWin = 1 :=
  trial_flags_one

/-- Witness for C1 at a concrete trial. -/
theorem stay_switch_complementary_w :
    (simulate_trial [0, 0, 1] 0 0).stayWin + (simulate_trial [0, 0, 1] 0 0).switchWin = 1 :=
  stay_switch_complementary [0, 0, 1] (by decide) 0 (by decide) 0 (by decide)

/-- C3: the door the host opens is distinct from the player's choice and is
never the door hiding the car (`doors.indexOf 1`); stated on the 1-indexed
record fields. -/
theorem host_opens_not_player_not_car :
    ∀ doors ∈ validDoorConfigs, ∀ p, p < 3 →
      ∀ k, k < (possible_doors doors p).length →
        (simulate_trial doors p k).hostOpens ≠ (simulate_trial doors p k).playerChoice ∧
        (simulate_trial doors p k).hostOpens ≠ doors.indexOf 1 + 1 := by
  decide

/-- Witness for C3 at a concrete trial. -/
theorem host_opens_not_player_not_car_w :
    (simulate_trial [1, 0, 0] 0 1).hostOpens ≠ (simulate_trial [1, 0, 0] 0 1).playerChoice ∧
    (simulate_trial [1, 0, 0] 0 1).hostOpens ≠ [1, 0, 0].indexOf 1 + 1 :=
  host_opens_not_player_not_car [1, 0, 0] (by decide) 0 (by decide) 1 (by decide)

/-- C5: the set of doors the host may legally open has size 1 or 2, and it
has size 2 exactly when the player's initial choice is the car's door. -/
theorem possible_doors_size :
    ∀ doors ∈ validDoorConfigs, ∀ p, p < 3 →
      ((possible_doors doors p).length = 1 ∨ (possible_doors doors p).length = 2) ∧
      ((possible_doors doors p).length = 2 ↔ p = doors.indexOf 1) := by
  decide

/-- Witness for C5 at a concrete configuration. -/
theorem possible_doors_size_w :
    ((possible_doors [0, 0, 1] 2).length = 1 ∨ (possible_doors [0, 0, 1] 2).length = 2) ∧
    ((possible_doors [0, 0, 1] 2).length = 2 ↔ 2 = [0, 0, 1].indexOf 1) :=
  possible_doors_size [0, 0, 1] (by decide) 2 (by decide)

/-- C6: `remaining_door = 3 - player_choice - host_opens` is the unique door
index in `{0, 1, 2}` distinct from both the player's choice and the host's
opened door, and the record stores it (1-indexed). -/
theorem remaining_door_unique :
    ∀ doors ∈ validDoorConfigs, ∀ p, p < 3 →
      ∀ k, k < (possible_doors doors p).length →
        (simulate_trial doors p k).remainingDoor =
          (3 - (p : ℤ) - (host_door doors p k : ℤ)) + 1 ∧
        (0 : ℤ) ≤ 3 - (p : ℤ) - (host_door doors p k : ℤ) ∧
        3 - (p : ℤ) - (host_door doors p k : ℤ) < 3 ∧
        3 - (p : ℤ) - (host_door doors p k : ℤ) ≠ (p : ℤ) ∧
        3 - (p : ℤ) - (host_door doors p k : ℤ) ≠ (host_door doors p k : ℤ) ∧
        ∀ d, d < 3 → d ≠ p → d ≠ host_door doors p k →
          (d : ℤ) = 3 - (p : ℤ) - (host_door doors p k : ℤ) := by
  decide

/-- Witness for C6 at a concrete trial. -/
theorem remaining_door_unique_w :
    (simulate_trial [0, 1, 0] 0 0).remainingDoor =
      (3 - (0 : ℤ) - (host_door [0, 1, 0] 0 0 : ℤ)) + 1 ∧
    (0 : ℤ) ≤ 3 - (0 : ℤ) - (host_door [0, 1, 0] 0 0 : ℤ) ∧
    3 - (0 : ℤ) - (host_door [0, 1, 0] 0 0 : ℤ) < 3 ∧
    3 - (0 : ℤ) - (host_door [0, 1, 0] 0 0 : ℤ) ≠ ((0 : ℕ) : ℤ) ∧
    3 - (0 : ℤ) - (host_door [0, 1, 0] 0 0 : ℤ) ≠ (host_door [0, 1, 0] 0 0 : ℤ) ∧
    ∀ d, d < 3 → d ≠ 0 → d ≠ host_door [0, 1, 0] 0 0 →
      (d : ℤ) = 3 - (0 : ℤ) - (host_door [0, 1, 0] 0 0 : ℤ) :=
  remaining_door_unique [0, 1, 0] (by decide) 0 (by decide) 0 (by decide)

/-- The state of a `MontyHallSimulator` instance: the constructor arguments
`num_trials` and `verbose`, and the result table `dataframe` (initially the
empty `pd.DataFrame()`, one `TrialRecord` row per trial afterwards). -/
structure MontyHallSimulator where
  num_trials : ℕ
  verbose : Bool
  dataframe : List TrialRecord

/-- The constructor `MontyHallSimulator.__init__`: stores the parameters and
an empty result table. -/
def MontyHallSimulator.init (num_trials : ℕ) (verbose : Bool) : MontyHallSimulator :=
  { num_trials := num_trials, verbose := verbose, dataframe := [] }

/-- `MontyHallSimulator.run_simulation`: runs `simulate_trial` once per
trial and stores the rows, with the per-trial random draws supplied by
`inputs`. -/
def MontyHallSimulator.run_simulation (self : MontyHallSimulator)
    (inputs : ℕ → List ℕ × ℕ × ℕ) : MontyHallSimulator :=
  { self with
    dataframe := (List.range self.num_trials).map (fun t =>
      simulate_trial (inputs t).1 (inputs t).2.1 (inputs t).2.2) }

/-- Round a rational to the nearest integer, ties to even — the rounding of
IEEE-754 round-to-nearest-even once the value is scaled to integer
significands. -/
def rnd_int (x : ℚ) : ℤ :=
  if x - ⌊x⌋ < 1 / 2 then ⌊x⌋
  else if 1 / 2 < x - ⌊x⌋ then ⌊x⌋ + 1
  else if ⌊x⌋ % 2 = 0 then ⌊x⌋ else ⌊x⌋ + 1

/-- Correct rounding of a positive rational to a binary64 value (53-bit
significand, unbounded exponent — identical to IEEE-754 double throughout
the normal range used by the simulator): scale into the binade
`[2^52, 2^53)` and round to nearest, ties to even. -/
def flPos (q : ℚ) : ℚ :=
  (rnd_int (q / 2 ^ (Int.log 2 q - 52)) : ℚ) * 2 ^ (Int.log 2 q - 52)

/-- Correct rounding of a rational to a binary64 value; every IEEE-754
double is the exact rational it denotes, and each arithmetic operation
rounds its exact result with `fl`. -/
def fl (q : ℚ) : ℚ :=
  if q = 0 then 0 else if q < 0 then -flPos (-q) else flPos q

/-- `MontyHallSimulator.calculate_statistics`: sums the two flag columns
(exact in int64) and computes `(wins / num_trials) * 100` in IEEE-754
double arithmetic: the division and the multiplication each round their
exact result with `fl`.  Accessing the column `self.dataframe['Stay Win']`
raises a `KeyError` exactly when the table has no rows (then the
`DataFrame` has no columns at all). -/
def MontyHallSimulator.calculate_statistics (self : MontyHallSimulator) :
    Except String (ℚ × ℚ) :=
  if self.dataframe.isEmpty then Except.error "KeyError"
  else
    let stay_wins := (self.dataframe.map TrialRecord.stayWin).sum
    let switch_wins := (self.dataframe.map TrialRecord.switchWin).sum
    Except.ok (fl (fl ((stay_wins : ℚ) / (self.num_trials : ℚ)) * 100),
      fl (fl ((switch_wins : ℚ) / (self.num_trials : ℚ)) * 100))

/-- The observable outcome of `print_results`: either the two percentages
are printed, or the exception was caught and logged (verbose), or it was
caught and silently discarded (non-verbose).  There is no propagating
outcome. -/
inductive ReportOutcome where
  | printed (stay_percentage switch_percentage : ℚ)
  | logged
  | silent

/-- `MontyHallSimulator.print_results`: calls `calculate_statistics` inside
`try`; on success prints, on any exception logs if `verbose` and otherwise
discards it.  Its total return type records that no exception escapes. -/
def MontyHallSimulator.print_results (self : MontyHallSimulator) : ReportOutcome :=
  match self.calculate_statistics with
  | Except.ok sw => ReportOutcome.printed sw.1 sw.2
  | Except.error _ => if self.verbose then ReportOutcome.logged else ReportOutcome.silent

/-- C4: with an empty result table (as after `__init__`, before
`run_simulation`), aggregation fails, `print_results` swallows the failure
(logging exactly when verbose, silently continuing otherwise), and no
exception propagates: `print_results` always yields a `ReportOutcome`. -/
theorem print_results_swallows_aggregation_error (st : MontyHallSimulator)
    (h : st.dataframe = []) :
    (∃ e, st.calculate_statistics = Except.error e) ∧
    st.print_results = (if st.verbose then ReportOutcome.logged else ReportOutcome.silent) ∧
    (st.verbose = false → st.print_results = ReportOutcome.silent) := by
  have hcalc : st.calculate_statistics = Except.error "KeyError" := by
    simp [MontyHallSimulator.calculate_statistics, h]
  have hpr : st.print_results =
      (if st.verbose then ReportOutcome.logged else ReportOutcome.silent) := by
    unfold MontyHallSimulator.print_results
    rw [hcalc]
  exact ⟨⟨"KeyError", hcalc⟩, hpr, fun hv => by rw [hpr, hv]; rfl⟩

/-- Witness for C4: a freshly initialized non-verbose simulator. -/
theorem print_results_swallows_aggregation_error_w :
    (∃ e, (MontyHallSimulator.init 1000 false).calculate_statistics = Except.error e) ∧
    (MontyHallSimulator.init 1000 false).print_results =
      (if (MontyHallSimulator.init 1000 false).verbose then ReportOutcome.logged
       else ReportOutcome.silent) ∧
    ((MontyHallSimulator.init 1000 false).verbose = false →
      (MontyHallSimulator.init 1000 false).print_results = ReportOutcome.silent) :=
  print_results_swallows_aggregation_error (MontyHallSimulator.init 1000 false) rfl

/-- Helper: summing the two flag columns of a table whose rows all satisfy
the complementary-flag invariant gives the number of rows. -/
theorem sum_flag_columns (l : List TrialRecord)
    (h : ∀ r ∈ l, r.stayWin + r.switchWin = 1) :
    (l.map TrialRecord.stayWin).sum + (l.map TrialRecord.switchWin).sum = l.length := by
  induction l with
  | nil => simp
  | cons a t ih =>
    simp only [List.map_cons, List.sum_cons, List.length_cons]
    have ha := h a (by simp)
    have ht := ih (fun r hr => h r (by simp [hr]))
    omega

/-- Helper: if frac is below one half, rounding to nearest is the floor. -/
theorem rnd_int_eq_floor (x : ℚ) (h : x - ⌊x⌋ < 1 / 2) : rnd_int x = ⌊x⌋ := by
  unfold rnd_int
  rw [if_pos h]

/-- Helper: rounding to the nearest integer moves a value by at most 1/2. -/
theorem rnd_int_err (x : ℚ) : |(rnd_int x : ℚ) - x| ≤ 1 / 2 := by
  have h1 : (⌊x⌋ : ℚ) ≤ x := Int.floor_le x
  have h2 : x < ⌊x⌋ + 1 := Int.lt_floor_add_one x
  unfold rnd_int
  split_ifs with ha hb hc <;>
    (rw [abs_sub_le_iff]; constructor <;> (push_cast; linarith))

/-- Helper: correct rounding to 53 bits has relative error at most `2^-53`
on nonnegative values. -/
theorem fl_err (q : ℚ) (hq : 0 ≤ q) : |fl q - q| ≤ q / 2 ^ 53 := by
  rcases hq.eq_or_lt with h | h
  · rw [← h]
    simp [fl]
  · unfold fl
    rw [if_neg h.ne', if_neg (not_lt.mpr h.le)]
    unfold flPos
    set e := Int.log 2 q with he
    set u : ℚ := (2 : ℚ) ^ (e - 52) with hu
    have hu0 : (0 : ℚ) < u := by rw [hu]; positivity
    have hqu : q / u * u = q := div_mul_cancel₀ q hu0.ne'
    have hsplit : (rnd_int (q / u) : ℚ) * u - q = ((rnd_int (q / u) : ℚ) - q / u) * u := by
      rw [sub_mul, hqu]
    rw [hsplit, abs_mul, abs_of_pos hu0]
    have hr := rnd_int_err (q / u)
    have hlog : (2 : ℚ) ^ e ≤ q := by
      have hz := Int.zpow_log_le_self (b := 2) (R := ℚ) (by norm_num) h
      push_cast at hz
      rw [← he] at hz
      exact hz
    have hu52 : u = (2 : ℚ) ^ e / 2 ^ 52 := by
      rw [hu, show (e - 52 : ℤ) = e - ((52 : ℕ) : ℤ) by norm_num,
        zpow_sub₀ (by norm_num : (2 : ℚ) ≠ 0), zpow_natCast]
    have hle : u ≤ q / 2 ^ 52 := by
      rw [hu52]
      gcongr
    have hmul : |(rnd_int (q / u) : ℚ) - q / u| * u ≤ (1 / 2) * u :=
      mul_le_mul_of_nonneg_right hr hu0.le
    have hlast : (1 / 2 : ℚ) * u ≤ q / 2 ^ 53 := by
      have hh := mul_le_mul_of_nonneg_left hle (by norm_num : (0 : ℚ) ≤ 1 / 2)
      have hhalf : (1 / 2 : ℚ) * (q / 2 ^ 52) = q / 2 ^ 53 := by ring
      linarith
    linarith

/-- Helper: correct rounding preserves nonnegativity. -/
theorem fl_nonneg (q : ℚ) (hq : 0 ≤ q) : 0 ≤ fl q := by
  have h := abs_sub_le_iff.mp (fl_err q hq)
  have h2 : q / 2 ^ 53 ≤ q := div_le_self hq (by norm_num)
  linarith [h.2]

/-- Helper: the doubly rounded percentage `fl (fl d * 100)` is within
`300 * d * 2^-53` of the exact percentage `100 * d`, for `d ≥ 0`. -/
theorem fl_pct_err (d : ℚ) (hd : 0 ≤ d) :
    |fl (fl d * 100) - 100 * d| ≤ 300 * d / 2 ^ 53 := by
  have h1 := fl_err d hd
  have h1' := abs_sub_le_iff.mp h1
  have hd' : 0 ≤ fl d := fl_nonneg d hd
  have hdd : d / 2 ^ 53 ≤ d := div_le_self hd (by norm_num)
  have h2 := fl_err (fl d * 100) (by positivity)
  have htri : |fl (fl d * 100) - 100 * d| ≤
      |fl (fl d * 100) - fl d * 100| + |fl d * 100 - 100 * d| := abs_sub_le _ _ _
  have habs2 : |fl d * 100 - 100 * d| = 100 * |fl d - d| := by
    rw [show fl d * 100 - 100 * d = 100 * (fl d - d) by ring, abs_mul,
      abs_of_pos (show (0 : ℚ) < 100 by norm_num)]
  have hfd : fl d ≤ 2 * d := by linarith [h1'.1]
  have hb2 : fl d * 100 / 2 ^ 53 ≤ 2 * d * 100 / 2 ^ 53 := by gcongr
  have hb3 : 100 * |fl d - d| ≤ 100 * (d / 2 ^ 53) :=
    mul_le_mul_of_nonneg_left h1 (by norm_num)
  linarith [htri, h2, hb2, hb3, habs2]

/-- Helper: evaluate `fl` on a positive rational from its binade bounds and
the rounded scaled significand. -/
theorem fl_eval (q : ℚ) (e m : ℤ) (hq : 0 < q)
    (he1 : (2 : ℚ) ^ e ≤ q) (he2 : q < (2 : ℚ) ^ (e + 1))
    (hm : rnd_int (q / 2 ^ (e - 52)) = m) :
    fl q = (m : ℚ) * 2 ^ (e - 52) := by
  have hlb : e ≤ Int.log 2 q := by
    rw [← Int.zpow_le_iff_le_log (by norm_num) hq]
    push_cast
    exact he1
  have hub : Int.log 2 q < e + 1 := by
    rw [← Int.lt_zpow_iff_log_lt (by norm_num) hq]
    push_cast
    exact he2
  have hlog : Int.log 2 q = e := by omega
  unfold fl
  rw [if_neg hq.ne', if_neg (not_lt.mpr hq.le)]
  unfold flPos
  rw [hlog, hm]

/-- Per-trial random draws giving one stay win and two switch wins in three
trials (trial 0: player picks the car; trials 1, 2: player picks a goat). -/
def inputsCE : ℕ → List ℕ × ℕ × ℕ :=
  fun t => if t = 0 then ([1, 0, 0], 0, 0) else ([1, 0, 0], 1, 0)

/-- C10 counterexample: after three trials with one stay win
(`stay_wins = 1`, `switch_wins = 2`), the double-precision percentages
returned by `calculate_statistics` are
`fl(fl(1/3)*100) = 4691249611844266 * 2^-47` and
`fl(fl(2/3)*100) = 4691249611844266 * 2^-46`, whose sum is
`14073748835532798 * 2^-47 ≠ 100` (in decimal, 99.99999999999999…): the
percentages do NOT sum exactly to 100. -/
theorem stay_switch_percentages_float_cx :
    ((MontyHallSimulator.init 3 false).run_simulation inputsCE).calculate_statistics =
      Except.ok ((4691249611844266 : ℚ) * 2 ^ ((5 : ℤ) - 52),
        (4691249611844266 : ℚ) * 2 ^ ((6 : ℤ) - 52)) ∧
    (4691249611844266 : ℚ) * 2 ^ ((5 : ℤ) - 52) +
      (4691249611844266 : ℚ) * 2 ^ ((6 : ℤ) - 52) ≠ 100 := by
  have hne : ((MontyHallSimulator.init 3 false).run_simulation
      inputsCE).dataframe.isEmpty = false := by decide
  have hstay : (((MontyHallSimulator.init 3 false).run_simulation
      inputsCE).dataframe.map TrialRecord.stayWin).sum = 1 := by decide
  have hswitch : (((MontyHallSimulator.init 3 false).run_simulation
      inputsCE).dataframe.map TrialRecord.switchWin).sum = 2 := by decide
  have hnum : ((MontyHallSimulator.init 3 false).run_simulation inputsCE).num_trials = 3 := rfl
  have hfl13 : fl ((1 : ℚ) / 3) = ((6004799503160661 : ℤ) : ℚ) * 2 ^ ((-2 : ℤ) - 52) := by
    apply fl_eval ((1 : ℚ) / 3) (-2) 6004799503160661 (by norm_num) (by norm_num) (by norm_num)
    have harg : ((1 : ℚ) / 3) / 2 ^ ((-2 : ℤ) - 52) = 18014398509481984 / 3 := by norm_num
    rw [harg]
    have hfloor : ⌊(18014398509481984 : ℚ) / 3⌋ = 6004799503160661 := by
      rw [Int.floor_eq_iff]
      constructor <;> norm_num
    rw [rnd_int_eq_floor _ (by rw [hfloor]; norm_num), hfloor]
  have hfl13c : fl (((6004799503160661 : ℤ) : ℚ) * 2 ^ ((-2 : ℤ) - 52) * 100) =
      ((4691249611844266 : ℤ) : ℚ) * 2 ^ ((5 : ℤ) - 52) := by
    apply fl_eval _ 5 4691249611844266 (by norm_num) (by norm_num) (by norm_num)
    have harg : (((6004799503160661 : ℤ) : ℚ) * 2 ^ ((-2 : ℤ) - 52) * 100) /
        2 ^ ((5 : ℤ) - 52) = 600479950316066100 / 128 := by norm_num
    rw [harg]
    have hfloor : ⌊(600479950316066100 : ℚ) / 128⌋ = 4691249611844266 := by
      rw [Int.floor_eq_iff]
      constructor <;> norm_num
    rw [rnd_int_eq_floor _ (by rw [hfloor]; norm_num), hfloor]
  have hfl23 : fl ((2 : ℚ) / 3) = ((6004799503160661 : ℤ) : ℚ) * 2 ^ ((-1 : ℤ) - 52) := by
    apply fl_eval ((2 : ℚ) / 3) (-1) 6004799503160661 (by norm_num) (by norm_num) (by norm_num)
    have harg : ((2 : ℚ) / 3) / 2 ^ ((-1 : ℤ) - 52) = 18014398509481984 / 3 := by norm_num
    rw [harg]
    have hfloor : ⌊(18014398509481984 : ℚ) / 3⌋ = 6004799503160661 := by
      rw [Int.floor_eq_iff]
      constructor <;> norm_num
    rw [rnd_int_eq_floor _ (by rw [hfloor]; norm_num), hfloor]
  have hfl23c : fl (((6004799503160661 : ℤ) : ℚ) * 2 ^ ((-1 : ℤ) - 52) * 100) =
      ((4691249611844266 : ℤ) : ℚ) * 2 ^ ((6 : ℤ) - 52) := by
    apply fl_eval _ 6 4691249611844266 (by norm_num) (by norm_num) (by norm_num)
    have harg : (((6004799503160661 : ℤ) : ℚ) * 2 ^ ((-1 : ℤ) - 52) * 100) /
        2 ^ ((6 : ℤ) - 52) = 600479950316066100 / 128 := by norm_num
    rw [harg]
    have hfloor : ⌊(600479950316066100 : ℚ) / 128⌋ = 4691249611844266 := by
      rw [Int.floor_eq_iff]
      constructor <;> norm_num
    rw [rnd_int_eq_floor _ (by rw [hfloor]; norm_num), hfloor]
  have hcalc : ((MontyHallSimulator.init 3 false).run_simulation inputsCE).calculate_statistics =
      Except.ok (fl (fl ((1 : ℚ) / 3) * 100), fl (fl ((2 : ℚ) / 3) * 100)) := by
    rw [MontyHallSimulator.calculate_statistics,
      if_neg (by rw [hne]; exact Bool.false_ne_true), hstay, hswitch, hnum]
    norm_num
  constructor
  · rw [hcalc, hfl13, hfl13c, hfl23, hfl23c]
    norm_num
  · norm_num

/-- C10 (amended): after `run_simulation` on a simulator with
`num_trials ≥ 1` and legal per-trial draws, `calculate_statistics`
succeeds, the stay-win and switch-win counts sum exactly to `num_trials`
(so the EXACT ratios `(wins/num_trials)*100` would sum exactly to 100),
and the two double-precision percentages actually returned sum to 100
within `2^-42` — but, because each is rounded, not always exactly
(see the counterexample at `num_trials = 3`). -/
theorem stay_switch_percentages_sum_100_up_to_rounding (num_trials : ℕ) (verbose : Bool)
    (inputs : ℕ → List ℕ × ℕ × ℕ) (hn : 1 ≤ num_trials)
    (hvalid : ∀ t < num_trials, (inputs t).1 ∈ validDoorConfigs ∧ (inputs t).2.1 < 3 ∧
      (inputs t).2.2 < (possible_doors (inputs t).1 (inputs t).2.1).length) :
    ∃ s w : ℚ,
      ((MontyHallSimulator.init num_trials verbose).run_simulation inputs).calculate_statistics
        = Except.ok (s, w) ∧
      (((MontyHallSimulator.init num_trials verbose).run_simulation
          inputs).dataframe.map TrialRecord.stayWin).sum +
        (((MontyHallSimulator.init num_trials verbose).run_simulation
          inputs).dataframe.map TrialRecord.switchWin).sum = num_trials ∧
      |s + w - 100| ≤ 1 / 2 ^ 42 := by
  set st := (MontyHallSimulator.init num_trials verbose).run_simulation inputs with hst
  have hdf : st.dataframe = (List.range num_trials).map (fun t =>
      simulate_trial (inputs t).1 (inputs t).2.1 (inputs t).2.2) := rfl
  have hnum : st.num_trials = num_trials := rfl
  have hne : st.dataframe.isEmpty = false := by
    obtain ⟨m, hm⟩ : ∃ m, num_trials = m + 1 := ⟨num_trials - 1, by omega⟩
    rw [hdf, hm, List.range_succ_eq_map]
    simp
  have hflags : ∀ r ∈ st.dataframe, r.stayWin + r.switchWin = 1 := by
    intro r hr
    rw [hdf] at hr
    simp only [List.mem_map, List.mem_range] at hr
    obtain ⟨t, ht, rfl⟩ := hr
    obtain ⟨h1, h2, h3⟩ := hvalid t ht
    exact trial_flags_one (inputs t).1 h1 (inputs t).2.1 h2 (inputs t).2.2 h3
  have hsum : (st.dataframe.map TrialRecord.stayWin).sum +
      (st.dataframe.map TrialRecord.switchWin).sum = num_trials := by
    rw [sum_flag_columns st.dataframe hflags, hdf]
    simp
  have hq : ((st.dataframe.map TrialRecord.stayWin).sum : ℚ) +
      ((st.dataframe.map TrialRecord.switchWin).sum : ℚ) = (num_trials : ℚ) := by
    exact_mod_cast hsum
  have hn0 : (num_trials : ℚ) ≠ 0 := by
    have h0 : 0 < num_trials := hn
    exact_mod_cast h0.ne'
  have hd12 : ((st.dataframe.map TrialRecord.stayWin).sum : ℚ) / (num_trials : ℚ) +
      ((st.dataframe.map TrialRecord.switchWin).sum : ℚ) / (num_trials : ℚ) = 1 := by
    rw [div_add_div_same, hq, div_self hn0]
  have hpct1 := fl_pct_err
    (((st.dataframe.map TrialRecord.stayWin).sum : ℚ) / (num_trials : ℚ)) (by positivity)
  have hpct2 := fl_pct_err
    (((st.dataframe.map TrialRecord.switchWin).sum : ℚ) / (num_trials : ℚ)) (by positivity)
  refine ⟨fl (fl (((st.dataframe.map TrialRecord.stayWin).sum : ℚ) / (num_trials : ℚ)) * 100),
    fl (fl (((st.dataframe.map TrialRecord.switchWin).sum : ℚ) / (num_trials : ℚ)) * 100),
    ?_, hsum, ?_⟩
  · rw [MontyHallSimulator.calculate_statistics, if_neg (by rw [hne]; exact Bool.false_ne_true)]
    rw [hnum]
  · have h1' := abs_sub_le_iff.mp hpct1
    have h2' := abs_sub_le_iff.mp hpct2
    rw [abs_sub_le_iff]
    constructor <;> linarith [h1'.1, h1'.2, h2'.1, h2'.2, hd12]

/-- Witness for the amended C10: one trial with a concrete legal draw. -/
theorem stay_switch_percentages_sum_100_up_to_rounding_w :
    ∃ s w : ℚ,
      ((MontyHallSimulator.init 1 false).run_simulation
        (fun _ => ([0, 0, 1], 0, 0))).calculate_statistics = Except.ok (s, w) ∧
      (((MontyHallSimulator.init 1 false).run_simulation
          (fun _ => ([0, 0, 1], 0, 0))).dataframe.map TrialRecord.stayWin).sum +
        (((MontyHallSimulator.init 1 false).run_simulation
          (fun _ => ([0, 0, 1], 0, 0))).dataframe.map TrialRecord.switchWin).sum = 1 ∧
      |s + w - 100| ≤ 1 / 2 ^ 42 :=
  stay_switch_percentages_sum_100_up_to_rounding 1 false (fun _ => ([0, 0, 1], 0, 0))
    (by decide) (by decide)

/-! ## Program A: Monte Carlo estimation of π (`Estimation of PI.py`) -/

/-- numpy's transformation of one unit-uniform sample `t` (drawn from the
half-open interval `[0, 1)` by `random_sample`) into a sample of
`np.random.uniform(low, high)`: `low + (high - low) * t`. -/
noncomputable def uniform_transform (low high t : ℝ) : ℝ := low + (high - low) * t

/-- `np.random.uniform(low, high, size)` over the explicit unit-uniform
stream `u` starting at counter `i`: raises `ValueError` for a negative
`size`, otherwise returns `size` transformed samples and the advanced
counter. -/
noncomputable def np_uniform (low high : ℝ) (size : ℤ) (u : ℕ → ℝ) (i : ℕ) :
    Except String (List ℝ × ℕ) :=
  if size < 0 then Except.error "ValueError: negative dimensions are not allowed"
  else Except.ok
    ((List.range size.toNat).map (fun k => uniform_transform low high (u (i + k))),
      i + size.toNat)

/-- `generate_random_points`: draws the `x` coordinates and then the `y`
coordinates, each by `np.random.uniform(-1, 1, num_trials)`. -/
noncomputable def generate_random_points (num_trials : ℤ) (u : ℕ → ℝ) (i : ℕ) :
    Except String ((List ℝ × List ℝ) × ℕ) :=
  match np_uniform (-1) 1 num_trials u i with
  | Except.error e => Except.error e
  | Except.ok (x, i1) =>
    match np_uniform (-1) 1 num_trials u i1 with
    | Except.error e => Except.error e
    | Except.ok (y, i2) => Except.ok ((x, y), i2)

/-- One entry of `calculate_distances`: `np.sqrt(x**2 + y**2)`. -/
noncomputable def calc_dist (a b : ℝ) : ℝ := Real.sqrt (a ^ 2 + b ^ 2)

/-- `calculate_distances`: element-wise distance from the origin. -/
noncomputable def calculate_distances (x y : List ℝ) : List ℝ :=
  List.zipWith calc_dist x y

/-- `estimate_pi`: generates points, computes distances, classifies a point
as inside the unit circle iff its distance is `≤ 1`, and returns
`4 * np.sum(inside_circle) / num_trials`. -/
noncomputable def estimate_pi (num_trials : ℤ) (u : ℕ → ℝ) (i : ℕ) :
    Except String (ℝ × ℕ) :=
  match generate_random_points num_trials u i with
  | Except.error e => Except.error e
  | Except.ok ((x, y), i1) =>
    let distances := calculate_distances x y
    let inside_circle := distances.countP (fun d => decide (d ≤ 1))
    Except.ok (4 * (inside_circle : ℝ) / (num_trials : ℝ), i1)

/-- One iteration of `main`'s loop body, lines 50-54 of the script: it
computes `pi_estimate` via `estimate_pi`, then calls
`generate_random_points` AGAIN for a fresh batch, recomputes distances and
the inside classification for that fresh batch, and hands those to
`plot_results`; the value is everything passed to `plot_results`, paired
with the advanced stream counter. -/
noncomputable def main_iteration (num_trials : ℤ) (u : ℕ → ℝ) (i : ℕ) :
    Except String ((ℝ × (List ℝ × List ℝ) × List Bool) × ℕ) :=
  match estimate_pi num_trials u i with
  | Except.error e => Except.error e
  | Except.ok (pi_estimate, i1) =>
    match generate_random_points num_trials u i1 with
    | Except.error e => Except.error e
    | Except.ok ((x, y), i2) =>
      let distances := calculate_distances x y
      let inside_circle := distances.map (fun d => decide (d ≤ 1))
      Except.ok ((pi_estimate, (x, y), inside_circle), i2)

/-- The hardcoded trial counts of Program A's `main`. -/
def pi_trials : List ℤ := [10, 100, 1000, 10000, 1000000]

/-- Program A's `main`: runs the loop body once per entry of the trial
list, threading the stream counter; collects each `plot_results` payload. -/
noncomputable def pa_main (u : ℕ → ℝ) :
    ℕ → List ℤ → Except String (List (ℝ × (List ℝ × List ℝ) × List Bool))
  | _, [] => Except.ok []
  | i, n :: rest =>
    match main_iteration n u i with
    | Except.error e => Except.error e
    | Except.ok (out, i2) =>
      match pa_main u i2 rest with
      | Except.error e => Except.error e
      | Except.ok outs => Except.ok (out :: outs)

/-- C7 counterexample: the upper endpoint 1 is NOT an admissible value of
`np.random.uniform(-1, 1)`: no unit sample `t` in numpy's half-open range
`[0, 1)` is transformed to 1. -/
theorem uniform_upper_endpoint_not_attained :
    ¬ ∃ t, t ∈ Set.Ico (0 : ℝ) 1 ∧ uniform_transform (-1) 1 t = 1 := by
  rintro ⟨t, ht, he⟩
  obtain ⟨h0, h1⟩ := Set.mem_Ico.mp ht
  unfold uniform_transform at he
  linarith

/-- C7 (amended): with unit uniforms drawn from `[0, 1)` (numpy's
`random_sample` contract), for every `n > 0` each coordinate produced by
`generate_random_points` lies in the half-open interval `[-1, 1)` — in
particular in the closed interval `[-1, 1]`, but the upper endpoint 1 is
never attained. -/
theorem generate_random_points_coords_Ico (n : ℤ) (u : ℕ → ℝ) (i : ℕ) (hn : 0 < n)
    (hu : ∀ k, u k ∈ Set.Ico (0 : ℝ) 1) :
    ∃ x y i2, generate_random_points n u i = Except.ok ((x, y), i2) ∧
      (∀ c ∈ x, c ∈ Set.Ico (-1 : ℝ) 1) ∧ (∀ c ∈ y, c ∈ Set.Ico (-1 : ℝ) 1) := by
  have hnn : ¬ n < 0 := not_lt.mpr hn.le
  have hbound : ∀ m, uniform_transform (-1) 1 (u m) ∈ Set.Ico (-1 : ℝ) 1 := by
    intro m
    obtain ⟨h0, h1⟩ := Set.mem_Ico.mp (hu m)
    exact Set.mem_Ico.mpr
      ⟨by unfold uniform_transform; linarith, by unfold uniform_transform; linarith⟩
  refine ⟨(List.range n.toNat).map (fun k => uniform_transform (-1) 1 (u (i + k))),
    (List.range n.toNat).map (fun k => uniform_transform (-1) 1 (u (i + n.toNat + k))),
    i + n.toNat + n.toNat, ?_, ?_, ?_⟩
  · simp [generate_random_points, np_uniform, hnn]
  · intro c hc
    obtain ⟨k, _, rfl⟩ := List.mem_map.mp hc
    exact hbound _
  · intro c hc
    obtain ⟨k, _, rfl⟩ := List.mem_map.mp hc
    exact hbound _

/-- Witness for the amended C7 with a concrete stream. -/
theorem generate_random_points_coords_Ico_w :
    ∃ x y i2, generate_random_points 1 (fun _ => 0) 0 = Except.ok ((x, y), i2) ∧
      (∀ c ∈ x, c ∈ Set.Ico (-1 : ℝ) 1) ∧ (∀ c ∈ y, c ∈ Set.Ico (-1 : ℝ) 1) :=
  generate_random_points_coords_Ico 1 (fun _ => 0) 0 (by decide)
    (fun _ => Set.mem_Ico.mpr ⟨le_rfl, zero_lt_one⟩)

/-- C9 counterexample: for the negative trial count `-1` the numpy call
raises (`ValueError: negative dimensions are not allowed`) instead of
returning empty sequences. -/
theorem generate_random_points_negative_cx :
    generate_random_points (-1) (fun _ => (0 : ℝ)) 0 =
      Except.error "ValueError: negative dimensions are not allowed" := by
  simp [generate_random_points, np_uniform]

/-- C9 (amended): for `n = 0`, `generate_random_points` raises no error and
returns two empty coordinate sequences; for `n < 0` it raises a
`ValueError` from numpy. -/
theorem generate_random_points_nonpositive (n : ℤ) (u : ℕ → ℝ) (i : ℕ) (hn : n ≤ 0) :
    (n = 0 → generate_random_points n u i = Except.ok (([], []), i)) ∧
    (n < 0 → generate_random_points n u i =
      Except.error "ValueError: negative dimensions are not allowed") := by
  constructor
  · rintro rfl
    simp [generate_random_points, np_uniform]
  · intro hneg
    simp [generate_random_points, np_uniform, hneg]

/-- Witness for the amended C9 at `n = 0`. -/
theorem generate_random_points_nonpositive_w :
    ((0 : ℤ) = 0 → generate_random_points 0 (fun _ => 0) 0 = Except.ok (([], []), 0)) ∧
    ((0 : ℤ) < 0 → generate_random_points 0 (fun _ => 0) 0 =
      Except.error "ValueError: negative dimensions are not allowed") :=
  generate_random_points_nonpositive 0 (fun _ => 0) 0 (by decide)

/-- C2: for `n > 0`, `estimate_pi` classifies a point as inside the unit
circle iff its Euclidean distance from the origin (the absolute value of
the corresponding complex number) is `≤ 1`, returns
`4 * (inside count) / n`, and the returned value lies in `[0, 4]`. -/
theorem estimate_pi_inside_iff_and_range (n : ℤ) (u : ℕ → ℝ) (i : ℕ) (hn : 0 < n) :
    (∀ a b : ℝ, calc_dist a b ≤ 1 ↔ Complex.abs ⟨a, b⟩ ≤ 1) ∧
    ∃ x y i2, generate_random_points n u i = Except.ok ((x, y), i2) ∧
      estimate_pi n u i = Except.ok
        (4 * (((calculate_distances x y).countP (fun d => decide (d ≤ 1))) : ℝ) / (n : ℝ),
          i2) ∧
      0 ≤ 4 * (((calculate_distances x y).countP (fun d => decide (d ≤ 1))) : ℝ) / (n : ℝ) ∧
      4 * (((calculate_distances x y).countP (fun d => decide (d ≤ 1))) : ℝ) / (n : ℝ) ≤ 4 := by
  constructor
  · intro a b
    unfold calc_dist
    rw [Complex.abs_apply, Complex.normSq_mk, show a * a + b * b = a ^ 2 + b ^ 2 by ring]
  · have hnn : ¬ n < 0 := not_lt.mpr hn.le
    have hn' : (0 : ℝ) < (n : ℝ) := by exact_mod_cast hn
    set X := (List.range n.toNat).map (fun k => uniform_transform (-1) 1 (u (i + k))) with hX
    set Y := (List.range n.toNat).map
      (fun k => uniform_transform (-1) 1 (u (i + n.toNat + k))) with hY
    have hgen : generate_random_points n u i = Except.ok ((X, Y), i + n.toNat + n.toNat) := by
      simp [generate_random_points, np_uniform, hnn, hX, hY]
    have hest : estimate_pi n u i = Except.ok
        (4 * (((calculate_distances X Y).countP (fun d => decide (d ≤ 1))) : ℝ) / (n : ℝ),
          i + n.toNat + n.toNat) := by
      unfold estimate_pi
      rw [hgen]
    have hcount : ((calculate_distances X Y).countP (fun d => decide (d ≤ 1))) ≤ n.toNat := by
      calc ((calculate_distances X Y).countP (fun d => decide (d ≤ 1)))
          ≤ (calculate_distances X Y).length := List.countP_le_length _
        _ = n.toNat := by
            simp [calculate_distances, hX, hY]
    have hcast : ((n.toNat : ℝ)) = (n : ℝ) := by
      exact_mod_cast Int.toNat_of_nonneg hn.le
    have hcR : (((calculate_distances X Y).countP (fun d => decide (d ≤ 1))) : ℝ) ≤ (n : ℝ) := by
      rw [← hcast]
      exact_mod_cast hcount
    refine ⟨X, Y, i + n.toNat + n.toNat, hgen, hest, ?_, ?_⟩
    · apply div_nonneg _ hn'.le
      positivity
    · rw [div_le_iff₀ hn']
      linarith

/-- Witness for C2 at `n = 1` with the constant zero stream. -/
theorem estimate_pi_inside_iff_and_range_w :
    (∀ a b : ℝ, calc_dist a b ≤ 1 ↔ Complex.abs ⟨a, b⟩ ≤ 1) ∧
    ∃ x y i2, generate_random_points 1 (fun _ => 0) 0 = Except.ok ((x, y), i2) ∧
      estimate_pi 1 (fun _ => 0) 0 = Except.ok
        (4 * (((calculate_distances x y).countP (fun d => decide (d ≤ 1))) : ℝ) /
          (((1 : ℤ)) : ℝ), i2) ∧
      0 ≤ 4 * (((calculate_distances x y).countP (fun d => decide (d ≤ 1))) : ℝ) /
        (((1 : ℤ)) : ℝ) ∧
      4 * (((calculate_distances x y).countP (fun d => decide (d ≤ 1))) : ℝ) /
        (((1 : ℤ)) : ℝ) ≤ 4 :=
  estimate_pi_inside_iff_and_range 1 (fun _ => 0) 0 (by decide)

/-- C8 (amended): every `main` loop iteration creates TWO sample batches of
`n` points: `estimate_pi` internally draws a batch starting at stream
counter `i` (consuming `2n` unit samples), and `main` then calls
`generate_random_points` again, so the points and inside/outside
classification passed to `plot_results` come from the fresh second batch
(counters `i + 2n` to `i + 4n`), not from the sample the displayed estimate
was computed from. -/
theorem main_iteration_two_batches (n : ℤ) (u : ℕ → ℝ) (i : ℕ) (hn : 0 < n) :
    ∃ v x y b, estimate_pi n u i = Except.ok (v, i + 2 * n.toNat) ∧
      generate_random_points n u (i + 2 * n.toNat) = Except.ok ((x, y), i + 4 * n.toNat) ∧
      main_iteration n u i = Except.ok ((v, (x, y), b), i + 4 * n.toNat) := by
  have hnn : ¬ n < 0 := not_lt.mpr hn.le
  have hgen : ∀ j, generate_random_points n u j = Except.ok
      (((List.range n.toNat).map (fun k => uniform_transform (-1) 1 (u (j + k))),
        (List.range n.toNat).map (fun k => uniform_transform (-1) 1 (u (j + n.toNat + k)))),
        j + n.toNat + n.toNat) := by
    intro j
    simp [generate_random_points, np_uniform, hnn]
  have hest : estimate_pi n u i = Except.ok
      (4 * (((calculate_distances
          ((List.range n.toNat).map (fun k => uniform_transform (-1) 1 (u (i + k))))
          ((List.range n.toNat).map
            (fun k => uniform_transform (-1) 1 (u (i + n.toNat + k))))).countP
          (fun d => decide (d ≤ 1))) : ℝ) / (n : ℝ),
        i + n.toNat + n.toNat) := by
    unfold estimate_pi
    rw [hgen i]
  have h2 : i + n.toNat + n.toNat = i + 2 * n.toNat := by omega
  rw [h2] at hest
  have hgen2 := hgen (i + 2 * n.toNat)
  have h4 : i + 2 * n.toNat + n.toNat + n.toNat = i + 4 * n.toNat := by omega
  rw [h4] at hgen2
  have hmain : main_iteration n u i = Except.ok
      ((4 * (((calculate_distances
          ((List.range n.toNat).map (fun k => uniform_transform (-1) 1 (u (i + k))))
          ((List.range n.toNat).map
            (fun k => uniform_transform (-1) 1 (u (i + n.toNat + k))))).countP
          (fun d => decide (d ≤ 1))) : ℝ) / (n : ℝ),
        ((List.range n.toNat).map (fun k => uniform_transform (-1) 1 (u (i + 2 * n.toNat + k))),
          (List.range n.toNat).map
            (fun k => uniform_transform (-1) 1 (u (i + 2 * n.toNat + n.toNat + k)))),
        (calculate_distances
          ((List.range n.toNat).map (fun k => uniform_transform (-1) 1 (u (i + 2 * n.toNat + k))))
          ((List.range n.toNat).map
            (fun k => uniform_transform (-1) 1 (u (i + 2 * n.toNat + n.toNat + k))))).map
          (fun d => decide (d ≤ 1))),
        i + 4 * n.toNat) := by
    simp only [main_iteration, hest, hgen2]
  exact ⟨_, _, _, _, hest, hgen2, hmain⟩

/-- Witness for the amended C8 at `n = 1` with the constant zero stream. -/
theorem main_iteration_two_batches_w :
    ∃ v x y b, estimate_pi 1 (fun _ => 0) 0 = Except.ok (v, 0 + 2 * (1 : ℤ).toNat) ∧
      generate_random_points 1 (fun _ => 0) (0 + 2 * (1 : ℤ).toNat) =
        Except.ok ((x, y), 0 + 4 * (1 : ℤ).toNat) ∧
      main_iteration 1 (fun _ => 0) 0 = Except.ok ((v, (x, y), b), 0 + 4 * (1 : ℤ).toNat) :=
  main_iteration_two_batches 1 (fun _ => 0) 0 (by decide)

/-- A concrete unit-uniform stream (values `2/8, 3/8, 4/8, 5/8, ...`) used
to exhibit the double sampling in `main`'s loop body. -/
noncomputable def uCE : ℕ → ℝ := fun k => ((k : ℝ) + 2) / 8

/-- C8 counterexample: with the stream `uCE` and `n = 1`, the sample from
which `estimate_pi` computes the displayed estimate is the point
`(-1/2, -1/4)` (and the estimate is 4), but `main`'s loop body passes the
DIFFERENT, freshly drawn point `(0, 1/4)` (with its classification) to
`plot_results` — refuting the claim that the plotted points are the same
sample the estimate was computed from. -/
theorem main_iteration_fresh_sample_cx :
    generate_random_points 1 uCE 0 = Except.ok (([-(1 : ℝ) / 2], [-(1 : ℝ) / 4]), 2) ∧
    main_iteration 1 uCE 0 = Except.ok ((4, ([(0 : ℝ)], [(1 : ℝ) / 4]), [true]), 4) ∧
    ([(0 : ℝ)] : List ℝ) ≠ [-(1 : ℝ) / 2] := by
  have hg1 : generate_random_points 1 uCE 0 = Except.ok (([-(1 : ℝ) / 2], [-(1 : ℝ) / 4]), 2) := by
    simp only [generate_random_points, np_uniform, uCE, uniform_transform]
    norm_num [List.range_succ, List.range_zero]
  have hd1 : Real.sqrt ((-(1 : ℝ) / 2) ^ 2 + (-(1 : ℝ) / 4) ^ 2) ≤ 1 := by
    rw [show ((-(1 : ℝ) / 2) ^ 2 + (-(1 : ℝ) / 4) ^ 2) = 5 / 16 by norm_num]
    calc Real.sqrt (5 / 16) ≤ Real.sqrt 1 := Real.sqrt_le_sqrt (by norm_num)
      _ = 1 := Real.sqrt_one
  have hest : estimate_pi 1 uCE 0 = Except.ok (4, 2) := by
    unfold estimate_pi
    rw [hg1]
    simp only [calculate_distances, List.zipWith_cons_cons, List.zipWith_nil_right, calc_dist,
      List.countP_cons, List.countP_nil, decide_eq_true_eq]
    rw [if_pos hd1]
    norm_num
  have hg2 : generate_random_points 1 uCE 2 = Except.ok (([(0 : ℝ)], [(1 : ℝ) / 4]), 4) := by
    simp only [generate_random_points, np_uniform, uCE, uniform_transform]
    norm_num [List.range_succ, List.range_zero]
  have hd2 : Real.sqrt ((0 : ℝ) ^ 2 + ((1 : ℝ) / 4) ^ 2) ≤ 1 := by
    rw [show ((0 : ℝ) ^ 2 + ((1 : ℝ) / 4) ^ 2) = 1 / 16 by norm_num]
    calc Real.sqrt (1 / 16) ≤ Real.sqrt 1 := Real.sqrt_le_sqrt (by norm_num)
      _ = 1 := Real.sqrt_one
  have hmain : main_iteration 1 uCE 0 = Except.ok ((4, ([(0 : ℝ)], [(1 : ℝ) / 4]), [true]), 4) := by
    simp only [main_iteration, hest, hg2, calculate_distances, List.zipWith_cons_cons,
      List.zipWith_nil_right, calc_dist, List.map_cons, List.map_nil]
    rw [decide_eq_true hd2]
  refine ⟨hg1, hmain, ?_⟩
  intro h
  have : (0 : ℝ) = -(1 : ℝ) / 2 := by
    injection h
  norm_num at this
